import Mathlib

/-!
Verification development for the SQL-to-FQL translation layer of the
tipresias repository (`sqlalchemy-fauna`).

Shallow embedding conventions:

* sqlparse token trees are modelled by `Tok`: leaf tokens carry a token
  type (`TType`) and a string value; composite groups (`Identifier`,
  `Comparison`, `Where`, ...) carry a group type (`GType`) and children.
  The tokenizer itself is an external library ("tokenization handled by an
  external library; the semantic interpretation of the token tree is
  ours"), so theorems quantify over token trees of the shapes that library
  produces.  The SQL formatter uppercases keywords before parsing, so
  keyword token values are written uppercase.
* the FQL expression DSL (`faunadb.query`, the `q.*` constructors) is
  modelled by the expression tree `Q`; `q.f(a, b)` becomes
  `Q.fn "f" [a, b]`, python dicts become `Q.obj`, lists become `Q.arr`.
* python exceptions are modelled by `Except` with error type `Exc`;
  `Exc.pyError` stands for low-level interpreter errors (TypeError,
  AttributeError, KeyError, AssertionError) that the walkers can hit on
  malformed token trees.
* scalar values produced by `extract_value` are modelled by `Value`
  (the float and datetime branches of `extract_value` are outside the
  claims under verification and are noted where relevant).
-/

namespace Tipresias

/-- Token types of the (external) sqlparse lexer that the translation layer
distinguishes: DML/DDL verbs, keywords, names, punctuation, literals,
comparison operators and whitespace. -/
inductive TType
  | DML
  | DDL
  | Keyword
  | Name
  | Punct
  | Literal
  | Comparison
  | Whitespace
deriving DecidableEq

/-- Group types of composite sqlparse tokens used by the translation layer. -/
inductive GType
  | Statement
  | Identifier
  | IdentifierList
  | Parenthesis
  | Where
  | Comparison
  | Function
  | Values
deriving DecidableEq

/-- A sqlparse token: either a leaf token (type and string value) or a
grouped token with children. -/
inductive Tok
  | atom (ttype : TType) (value : String)
  | group (gtype : GType) (children : List Tok)

/-- Token.match with a (ttype, value) pair: leaf tokens only, exact value
comparison (values are already uppercased by the SQL formatter). -/
def Tok.matchTV (t : TType) (v : String) : Tok → Bool
  | .atom tt vv => tt = t && vv = v
  | .group _ _ => false

/-- Test of the leaf token type (the `t=` filter of `token_next_by`). -/
def Tok.isTType (t : TType) : Tok → Bool
  | .atom tt _ => tt = t
  | .group _ _ => false

/-- Test of the group type (the `i=` filter of `token_next_by`). -/
def Tok.isGroup (g : GType) : Tok → Bool
  | .group gg _ => gg = g
  | .atom _ _ => false

/-- Whitespace test (`token.is_whitespace`). -/
def Tok.isWs : Tok → Bool
  | .atom .Whitespace _ => true
  | _ => false

/-- String value of a leaf token (groups are never read through `.value`
by the embedded code paths). -/
def Tok.value : Tok → String
  | .atom _ v => v
  | .group _ _ => ""

/-- Children of a grouped token. -/
def Tok.children : Tok → List Tok
  | .atom _ _ => []
  | .group _ cs => cs

/-- First match of a predicate in a token list together with the suffix
after the match.  This is `token_next_by` in suffix form: every embedded
walker only ever moves forward through a token list, so threading the
remaining suffix is equivalent to threading the found index. -/
def findTok : List Tok → (Tok → Bool) → Option (Tok × List Tok)
  | [], _ => none
  | t :: rest, p => if p t then some (t, rest) else findTok rest p

/-- `token_first`: the first non-whitespace token of a group. -/
def tokFirst (stmt : Tok) : Option Tok :=
  (findTok stmt.children (fun t => !t.isWs)).map Prod.fst

/-- Scalar values produced by `extract_value`.  The float and datetime
branches of the source are not exercised by any claim and are collapsed
into the string fallback (see the doc comment on `extractValueSpec`). -/
inductive Value
  | null
  | bool (b : Bool)
  | int (n : Int)
  | str (s : String)
deriving DecidableEq

/-- Exceptions of the driver: the typed errors of
`sqlalchemy_fauna.exceptions` (`NotSupportedError`, `ProgrammingError`),
database errors (`faunadb.errors.BadRequest` and any other DB error), and
plain python interpreter errors raised by walking malformed token trees. -/
inductive Exc
  | notSupported (msg : String)
  | programming (msg : String)
  | dbBadRequest (msg : String)
  | dbOther (msg : String)
  | pyError (msg : String)
deriving DecidableEq

/-- Substring test (python `needle in haystack`). -/
def strContains (needle haystack : String) : Bool :=
  haystack.data.tails.any (fun suf => needle.data.isPrefixOf suf)

/-- The legacy driver's `FaunadbClient._extract_value`
(`sqlalchemy_fauna/faunadb.py`): `"NONE"` maps to `None`; any other token
value (token values are always strings) is returned with
`value.replace("'", "")` applied, which removes every apostrophe of the
string (single-character pattern, empty replacement, i.e. a filter). -/
def extractValueLegacy (v : String) : Value :=
  if v = "NONE" then .null
  else .str (String.mk (v.data.filter (fun c => c != '\'')))

/-- Strip exactly the first and the last character when both are single
quotes, preserving interior apostrophes. -/
def stripOuterQuotes (v : String) : Option String :=
  match v.data with
  | c :: rest =>
    if c = '\'' && rest.getLast? = some '\'' && rest.length ≥ 1 then
      some (String.mk (rest.dropLast))
    else none
  | [] => none

/-- Modelled from the spec: `extract_value` of
`sqlalchemy_fauna/fauna/translation/common.py` is absent from `src/`
(only its unit tests and its callers are present).  Spec section 4.1:
`"NONE"` maps to null, `"TRUE"`/`"FALSE"` to booleans, quoted strings have
only the first and the last quote character stripped (interior apostrophes
preserved), unquoted numeric literals become numbers, quoted ones stay
strings.  The ISO-8601 datetime branch and the float branch are not
exercised by any claim and fall through to the string fallback here. -/
def extractValueSpec (v : String) : Value :=
  if v = "NONE" then .null
  else if v = "TRUE" then .bool true
  else if v = "FALSE" then .bool false
  else
    match stripOuterQuotes v with
    | some s => .str s
    | none =>
      match v.toInt? with
      | some n => .int n
      | none => .str v

/-- C7: the claim states that `extract_value` maps `"NONE"` to null and
strips only the first and the last quote character of a single-quoted
string, preserving interior apostrophes.  The legacy
`FaunadbClient._extract_value` (the only `extract_value` present under
`src/`, and the code place the claim cites) instead strips every
apostrophe: on the token value `'Bob's'` it returns `Bobs`, while the
spec-modelled conforming `extract_value` (pinned by the repository's own
unit tests) returns `Bob's`.  The `"NONE"` clause does hold of the legacy
code. -/
theorem extract_value_interior_apostrophes_bug :
    extractValueLegacy "NONE" = Value.null
      ∧ extractValueLegacy "\x27Bob\x27s\x27" = Value.str "Bobs"
      ∧ extractValueSpec "\x27Bob\x27s\x27" = Value.str "Bob\x27s"
      ∧ Value.str "Bobs" ≠ Value.str "Bob\x27s" := by
  refine ⟨rfl, rfl, by decide, by decide⟩

/-! ## The FQL expression tree -/

/-- FQL expression trees built by the `faunadb.query` DSL: scalar leaves,
python dicts (`obj`), python lists (`arr`) and query-function applications
(`fn`), e.g. `q.index("all_users")` is `.fn "index" [.str "all_users"]`. -/
inductive Q
  | null
  | bool (b : Bool)
  | int (n : Int)
  | str (s : String)
  | obj (fields : List (String × Q))
  | arr (elems : List Q)
  | fn (name : String) (args : List Q)

/-- Embed an extracted scalar value into an FQL expression tree. -/
def valueToQ : Value → Q
  | .null => .null
  | .bool b => .bool b
  | .int n => .int n
  | .str s => .str s

/-! ## WHERE-clause comparisons and matched records (C3) -/

/-- The `Comparisons` record of the WHERE parser: an optional `id`
equality and the ordered `(field, value)` equality pairs. -/
structure Comparisons where
  by_id : Option Value
  by_index : List (String × Value)
deriving DecidableEq

/-- The loop of `FaunadbClient._matched_records` that appends one
`q.match(q.index(f"{collection_name}_by_{field}"), value)` per
`(field, value)` pair of `by_index`, in order. -/
def byIndexMatches (collectionName : String) : List (String × Value) → List Q
  | [] => []
  | (field, v) :: rest =>
    .fn "match" [.fn "index" [.str (collectionName ++ "_by_" ++ field)], valueToQ v]
      :: byIndexMatches collectionName rest

/-- `FaunadbClient._matched_records` (`sqlalchemy_fauna/faunadb.py`):
no WHERE clause gives an intersection of the single `all_<table>` match;
a `by_id` comparison gives a direct ref, rejected if `by_index` is also
non-empty; otherwise the intersection of the `by_index` matches. -/
def matchedRecords (collectionName : String) : Option Comparisons → Except Exc Q
  | none =>
    .ok (.fn "intersection" [.fn "match" [.fn "index" [.str ("all_" ++ collectionName)]]])
  | some comparisons =>
    match comparisons.by_id with
    | some i =>
      if comparisons.by_index.isEmpty then
        .ok (.fn "ref" [.fn "collection" [.str collectionName], valueToQ i])
      else
        .error (.notSupported
          "When querying by ID, including other conditions in the WHERE clause is not supported.")
    | none => .ok (.fn "intersection" (byIndexMatches collectionName comparisons.by_index))

theorem byIndexMatches_eq_map (t : String) (ps : List (String × Value)) :
    byIndexMatches t ps =
      ps.map (fun p => .fn "match" [.fn "index" [.str (t ++ "_by_" ++ p.1)], valueToQ p.2]) := by
  induction ps with
  | nil => rfl
  | cons p rest ih => simp [byIndexMatches, ih]

/-- C3: case analysis of the translation of WHERE comparisons into the
matched-records expression.  No WHERE clause: intersection of a single
match on `all_<table>`; `by_id` set with empty `by_index`: direct
`ref(collection(table), by_id)`; `by_id` set with non-empty `by_index`:
`NotSupported`; otherwise: intersection of
`match(index("<table>_by_<field>"), value)` over the pairs in order. -/
theorem matched_records_case_analysis (t : String) :
    matchedRecords t none =
        .ok (.fn "intersection" [.fn "match" [.fn "index" [.str ("all_" ++ t)]]])
      ∧ (∀ i, matchedRecords t (some ⟨some i, []⟩) =
          .ok (.fn "ref" [.fn "collection" [.str t], valueToQ i]))
      ∧ (∀ i p ps, matchedRecords t (some ⟨some i, p :: ps⟩) =
          .error (.notSupported
            "When querying by ID, including other conditions in the WHERE clause is not supported."))
      ∧ (∀ ps, matchedRecords t (some ⟨none, ps⟩) =
          .ok (.fn "intersection"
            (ps.map (fun p =>
              .fn "match" [.fn "index" [.str (t ++ "_by_" ++ p.1)], valueToQ p.2])))) := by
  refine ⟨rfl, fun i => rfl, fun i p ps => rfl, fun ps => ?_⟩
  simp [matchedRecords, byIndexMatches_eq_map]

/-! ## WHERE parsing: the legacy parser of `faunadb.py` and the
spec-modelled parser of the translation layer (C8) -/

/-- Message of the equality-only restriction (pinned by the repository's
unit tests). -/
def eqOnlyMsg : String := "Only column-value equality conditions are currently supported"

/-- One iteration of the comparison loop of
`FaunadbClient._extract_where_conditions`: find the Identifier child
(crash on a missing one), take its last child token as the column, require
a `=` comparison operator token, read the first Literal child through the
legacy `extract_value`, and store the result under `by_id` for the column
`id`, otherwise append to `by_index`.  (The source asserts that an `id`
value is not a float; `Value` has no float constructor, so the assertion
always passes in the model.) -/
def legacyWhereComparison (acc : Comparisons) (comp : Tok) : Except Exc Comparisons :=
  match findTok comp.children (·.isGroup .Identifier) with
  | none => .error (.pyError "AttributeError")
  | some (ident, _) =>
    match ident.children.getLast? with
    | none => .error (.pyError "IndexError")
    | some colTok =>
      match findTok comp.children (·.matchTV .Comparison "=") with
      | none => .error (.notSupported eqOnlyMsg)
      | some _ =>
        match findTok comp.children (·.isTType .Literal) with
        | none => .error (.pyError "AttributeError")
        | some (lit, _) =>
          let v := extractValueLegacy lit.value
          if colTok.value = "id" then .ok { acc with by_id := some v }
          else .ok { acc with by_index := acc.by_index ++ [(colTok.value, v)] }

/-- The `while True` loop of `FaunadbClient._extract_where_conditions`
over the Comparison group children of the Where group: every comparison
after the first asserts that an `AND` keyword occurs somewhere in the
Where group (the source computes `should_have_and_keyword` from the index
of the previous comparison, which is positive exactly for the second and
later iterations, and searches `AND` from the start of the group each
time). -/
def legacyWhereLoop (hasAnd : Bool) : List Tok → Bool → Comparisons → Except Exc Comparisons
  | [], _, acc => .ok acc
  | comp :: rest, isFirst, acc =>
    if !isFirst && !hasAnd then .error (.pyError "AssertionError")
    else
      match legacyWhereComparison acc comp with
      | .error e => .error e
      | .ok acc' => legacyWhereLoop hasAnd rest false acc'

/-- `FaunadbClient._extract_where_conditions` (`sqlalchemy_fauna/faunadb.py`):
no Where group gives `None`; an `OR` keyword raises `NotSupported`;
otherwise the comparison loop builds the `Comparisons` record.  The loop
locates Comparison children by `token_next_by(i=Comparison, idx)` with
strictly increasing indices starting after index 0; the first child of a
Where group is always the `WHERE` keyword, so this is the ordered list of
Comparison children. -/
def extractWhereConditionsLegacy (stmt : Tok) : Except Exc (Option Comparisons) :=
  match findTok stmt.children (·.isGroup .Where) with
  | none => .ok none
  | some (wg, _) =>
    if wg.children.any (·.matchTV .Keyword "OR") then
      .error (.notSupported "OR not yet supported in WHERE clauses.")
    else
      (legacyWhereLoop (wg.children.any (·.matchTV .Keyword "AND"))
        (wg.children.filter (·.isGroup .Comparison)) true ⟨none, []⟩).map some

/-- Modelled from the spec: one comparison of `parse_where` of
`sqlalchemy_fauna/fauna/translation/common.py`, which is absent from
`src/` (only its unit tests and callers are present).  Spec section 4.2:
the operator token must be `=` (anything else raises `NotSupported` with
the equality-only message), the column is the last `Name` token of the
Identifier on the left, the right side is a literal passed through
`extract_value`; an `id` column is stored in `by_id`, others are appended
to `by_index`. -/
def specWhereComparison (acc : Comparisons) (comp : Tok) : Except Exc Comparisons :=
  match findTok comp.children (·.isTType .Comparison) with
  | none => .error (.notSupported eqOnlyMsg)
  | some (op, _) =>
    if op.value != "=" then .error (.notSupported eqOnlyMsg)
    else
      match findTok comp.children (·.isGroup .Identifier) with
      | none => .error (.pyError "AttributeError")
      | some (ident, _) =>
        match (ident.children.filter (·.isTType .Name)).getLast? with
        | none => .error (.pyError "AttributeError")
        | some colTok =>
          match findTok comp.children (·.isTType .Literal) with
          | none => .error (.pyError "AttributeError")
          | some (lit, _) =>
            let v := extractValueSpec lit.value
            if colTok.value = "id" then .ok { acc with by_id := some v }
            else .ok { acc with by_index := acc.by_index ++ [(colTok.value, v)] }

/-- Modelled from the spec: the comparison-set extraction of `parse_where`
(`common.py`, absent from `src/`).  An `OR` keyword anywhere in the Where
group raises `NotSupported`; a `BETWEEN` keyword raises `NotSupported`
with its own message; an `IN` keyword (which the tokenizer never groups
into a Comparison) raises the equality-only message; the remaining
Comparison children are folded through `specWhereComparison`.  The exact
messages are pinned by the repository's unit tests
(`tests/unit/translation/test_common.py`). -/
def parseWhereConditionsSpec (wg : Tok) : Except Exc Comparisons :=
  if wg.children.any (·.matchTV .Keyword "OR") then
    .error (.notSupported "OR not yet supported in WHERE clauses.")
  else if wg.children.any (·.matchTV .Keyword "BETWEEN") then
    .error (.notSupported "BETWEEN not yet supported in WHERE clauses")
  else if wg.children.any (·.matchTV .Keyword "IN") then
    .error (.notSupported eqOnlyMsg)
  else
    (wg.children.filter (·.isGroup .Comparison)).foldlM specWhereComparison ⟨none, []⟩

/-- Modelled from the spec: `parse_where` (`common.py`, absent from
`src/`) parses the Where group (or its absence) into `Comparisons` and
translates them into the matched-records expression of spec section 4.2,
i.e. the same shaping as `FaunadbClient._matched_records`. -/
def parseWhereSpec (w : Option Tok) (tableName : String) : Except Exc Q :=
  match w with
  | none => matchedRecords tableName none
  | some wg =>
    match parseWhereConditionsSpec wg with
    | .error e => .error e
    | .ok comparisons => matchedRecords tableName (some comparisons)

/-- The Where group of `WHERE users.age BETWEEN 1 AND 2`: the tokenizer
produces no Comparison group for `BETWEEN`, only the keyword, the
identifier and the two literals. -/
def betweenWhereGroup : Tok :=
  .group .Where
    [.atom .Keyword "WHERE",
     .atom .Whitespace " ",
     .group .Identifier [.atom .Name "users", .atom .Punct ".", .atom .Name "age"],
     .atom .Whitespace " ",
     .atom .Keyword "BETWEEN",
     .atom .Whitespace " ",
     .atom .Literal "1",
     .atom .Whitespace " ",
     .atom .Keyword "AND",
     .atom .Whitespace " ",
     .atom .Literal "2"]

/-- The statement `SELECT * FROM users WHERE users.age BETWEEN 1 AND 2`. -/
def betweenSelectStmt : Tok :=
  .group .Statement
    [.atom .DML "SELECT",
     .atom .Whitespace " ",
     .atom .Punct "*",
     .atom .Whitespace " ",
     .atom .Keyword "FROM",
     .atom .Whitespace " ",
     .group .Identifier [.atom .Name "users"],
     .atom .Whitespace " ",
     betweenWhereGroup]

/-- The statement `SELECT * FROM users WHERE users.age > 1`: the
tokenizer groups `users.age > 1` into a Comparison whose operator token
is `>`. -/
def gtSelectStmt : Tok :=
  .group .Statement
    [.atom .DML "SELECT",
     .atom .Whitespace " ",
     .atom .Punct "*",
     .atom .Whitespace " ",
     .atom .Keyword "FROM",
     .atom .Whitespace " ",
     .group .Identifier [.atom .Name "users"],
     .atom .Whitespace " ",
     .group .Where
       [.atom .Keyword "WHERE",
        .atom .Whitespace " ",
        .group .Comparison
          [.group .Identifier [.atom .Name "users", .atom .Punct ".", .atom .Name "age"],
           .atom .Whitespace " ",
           .atom .Comparison ">",
           .atom .Whitespace " ",
           .atom .Literal "1"]]]

/-- The statement
`SELECT * FROM users WHERE users.name = 'Bob' OR users.age = 30`. -/
def orSelectStmt : Tok :=
  .group .Statement
    [.atom .DML "SELECT",
     .atom .Whitespace " ",
     .atom .Punct "*",
     .atom .Whitespace " ",
     .atom .Keyword "FROM",
     .atom .Whitespace " ",
     .group .Identifier [.atom .Name "users"],
     .atom .Whitespace " ",
     .group .Where
       [.atom .Keyword "WHERE",
        .atom .Whitespace " ",
        .group .Comparison
          [.group .Identifier [.atom .Name "users", .atom .Punct ".", .atom .Name "name"],
           .atom .Whitespace " ",
           .atom .Comparison "=",
           .atom .Whitespace " ",
           .atom .Literal "'Bob'"],
        .atom .Whitespace " ",
        .atom .Keyword "OR",
        .atom .Whitespace " ",
        .group .Comparison
          [.group .Identifier [.atom .Name "users", .atom .Punct ".", .atom .Name "age"],
           .atom .Whitespace " ",
           .atom .Comparison "=",
           .atom .Whitespace " ",
           .atom .Literal "30"]]]

/-- C8: the claim states that the WHERE parser raises `NotSupported` with
a `BETWEEN`-specific message for `BETWEEN` conditions (and with the
equality-only message for non-equality operators, and an `OR` message for
`OR`).  The only WHERE parser under `src/`,
`FaunadbClient._extract_where_conditions`, instead returns an empty
`Comparisons` record for a `BETWEEN` clause without raising, which
`_matched_records` then turns into an intersection of zero matches; the
spec-modelled `parse_where` (whose exact messages the repository's unit
tests pin) raises the required error.  The equality-only message for
non-equality operators and the `OR` message do hold of the legacy parser
(final two conjuncts). -/
theorem where_parser_between_bug :
    extractWhereConditionsLegacy betweenSelectStmt = .ok (some ⟨none, []⟩)
      ∧ matchedRecords "users" (some ⟨none, []⟩) = .ok (.fn "intersection" [])
      ∧ parseWhereSpec (some betweenWhereGroup) "users" =
          .error (.notSupported "BETWEEN not yet supported in WHERE clauses")
      ∧ extractWhereConditionsLegacy gtSelectStmt = .error (.notSupported eqOnlyMsg)
      ∧ extractWhereConditionsLegacy orSelectStmt =
          .error (.notSupported "OR not yet supported in WHERE clauses.") := by
  refine ⟨rfl, rfl, rfl, rfl, rfl⟩

/-! ## The UPDATE translator (C5, C9) -/

/-- `token_next(idx, skip_ws=True)` in suffix form: the first
non-whitespace token of the remaining suffix. -/
def tokenNextSkipWs (rest : List Tok) : Option Tok :=
  (findTok rest (fun t => !t.isWs)).map Prod.fst

/-- Modelled from the spec: the `Column` model of
`sqlalchemy_fauna/fauna/translation/models.py` is absent from `src/`
(only its unit tests and callers are present).  Spec section 3: a column
constructed from an Identifier group of the form `T.C` has name `C`; a
bare identifier is its own name. -/
def columnNameOfIdent (ident : Tok) : Except Exc String :=
  match findTok ident.children (·.matchTV .Punct ".") with
  | some (_, afterDot) =>
    match findTok afterDot (·.isTType .Name) with
    | some (n, _) => .ok n.value
    | none => .error (.pyError "AttributeError")
  | none =>
    match findTok ident.children (·.isTType .Name) with
    | some (n, _) => .ok n.value
    | none => .error (.pyError "AttributeError")

/-- Modelled from the spec: the `Table` model of `models.py` (absent from
`src/`) takes its name from the table Identifier group. -/
def tableNameOfIdent (ident : Tok) : Except Exc String :=
  match findTok ident.children (·.isTType .Name) with
  | some (n, _) => .ok n.value
  | none => .error (.pyError "AttributeError")

/-- `translate_update` (`sqlalchemy_fauna/fauna/translation/update.py`):
find the table Identifier (`NotSupported` when absent), find the `SET`
keyword and the following Comparison group, read the assignment column
from its Identifier, require a `=` comparison token
(`ProgrammingError` when absent), extract the assigned value from the
next non-whitespace token, parse the Where group into the matched-records
expression, and emit the single
`let({count: do(update(select("ref", get(M)), {data: {c: v}}), count(M))},
{data: [{count: var("count")}]})` expression. -/
def translateUpdate (stmt : Tok) : Except Exc (List Q) :=
  match findTok stmt.children (·.isGroup .Identifier) with
  | none => .error (.notSupported "Only one table per query is currently supported")
  | some (tableIdent, afterTable) =>
    match tableNameOfIdent tableIdent with
    | .error e => .error e
    | .ok tableName =>
      match findTok afterTable (·.matchTV .Keyword "SET") with
      | none => .error (.pyError "TypeError")
      | some (_, afterSet) =>
        match findTok afterSet (·.isGroup .Comparison) with
        | none => .error (.pyError "AttributeError")
        | some (cmpGroup, _) =>
          match findTok cmpGroup.children (·.isGroup .Identifier) with
          | none => .error (.pyError "AttributeError")
          | some (colIdent, _) =>
            match columnNameOfIdent colIdent with
            | .error e => .error e
            | .ok colName =>
              match findTok cmpGroup.children (·.matchTV .Comparison "=") with
              | none => .error (.programming "No \x27=\x27 were found for value assignment.")
              | some (_, afterEq) =>
                match tokenNextSkipWs afterEq with
                | none => .error (.pyError "AttributeError")
                | some valTok =>
                  let v := extractValueSpec valTok.value
                  match parseWhereSpec
                      ((findTok stmt.children (·.isGroup .Where)).map Prod.fst) tableName with
                  | .error e => .error e
                  | .ok records =>
                    .ok [.fn "let"
                      [.obj [("count",
                        .fn "do"
                          [.fn "update"
                            [.fn "select" [.str "ref", .fn "get" [records]],
                             .obj [("data", .obj [(colName, valueToQ v)])]],
                           .fn "count" [records]])],
                       .obj [("data", .arr [.obj [("count", .fn "var" [.str "count"])]])]]]

/-- A statement tree `UPDATE t SET c = v WHERE ...` as the tokenizer
produces it. -/
def mkUpdateStmt (t c v : String) (whereChildren : List Tok) : Tok :=
  .group .Statement
    [.atom .DML "UPDATE",
     .atom .Whitespace " ",
     .group .Identifier [.atom .Name t],
     .atom .Whitespace " ",
     .atom .Keyword "SET",
     .atom .Whitespace " ",
     .group .Comparison
       [.group .Identifier [.atom .Name c],
        .atom .Whitespace " ",
        .atom .Comparison "=",
        .atom .Whitespace " ",
        .atom .Literal v],
     .atom .Whitespace " ",
     .group .Where whereChildren]

/-- C5: for every supported `UPDATE t SET c = v WHERE ...` statement, the
update translator emits exactly the single expression
`let({count: do(update(select("ref", get(M)), {data: {c: v}}), count(M))},
{data: [{count: var("count")}]})`, where `M` is the matched-records
expression obtained from the WHERE clause (and an error of the WHERE
parser propagates unchanged). -/
theorem translate_update_emission (t c v : String) (whereChildren : List Tok) :
    translateUpdate (mkUpdateStmt t c v whereChildren) =
      (parseWhereSpec (some (.group .Where whereChildren)) t).map
        (fun records =>
          [Q.fn "let"
            [.obj [("count",
              .fn "do"
                [.fn "update"
                  [.fn "select" [.str "ref", .fn "get" [records]],
                   .obj [("data", .obj [(c, valueToQ (extractValueSpec v))])]],
                 .fn "count" [records]])],
             .obj [("data", .arr [.obj [("count", .fn "var" [.str "count"])]])]]]) := by
  cases h : parseWhereSpec (some (.group .Where whereChildren)) t <;>
    simp [translateUpdate, mkUpdateStmt, findTok, Tok.isGroup, Tok.matchTV, Tok.isTType,
      Tok.isWs, Tok.children, Tok.value, columnNameOfIdent, tableNameOfIdent,
      tokenNextSkipWs, Except.map, h]

/-- A statement tree `UPDATE t SET c <> v WHERE ...`: the SET clause has a
comparison group but no `=` comparison token. -/
def mkUpdateStmtNoEq (t c v : String) (whereChildren : List Tok) : Tok :=
  .group .Statement
    [.atom .DML "UPDATE",
     .atom .Whitespace " ",
     .group .Identifier [.atom .Name t],
     .atom .Whitespace " ",
     .atom .Keyword "SET",
     .atom .Whitespace " ",
     .group .Comparison
       [.group .Identifier [.atom .Name c],
        .atom .Whitespace " ",
        .atom .Comparison "<>",
        .atom .Whitespace " ",
        .atom .Literal v],
     .atom .Whitespace " ",
     .group .Where whereChildren]

/-- C9: an UPDATE statement whose SET clause contains no `=` comparison
token makes the update translator raise a `ProgrammingError` (not a
`NotSupported` error). -/
theorem update_set_without_equals_programming_error
    (t c v : String) (whereChildren : List Tok) :
    translateUpdate (mkUpdateStmtNoEq t c v whereChildren) =
      .error (.programming "No \x27=\x27 were found for value assignment.") := by
  simp [translateUpdate, mkUpdateStmtNoEq, findTok, Tok.isGroup, Tok.matchTV, Tok.isTType,
    Tok.isWs, Tok.children, columnNameOfIdent, tableNameOfIdent, tokenNextSkipWs]

/-! ## The CREATE retry policy of the driver (C6) -/

/-- The retry condition of `FaunaClient._execute_create_with_retries`: the
error is a `BadRequest` whose message contains
`"document data is not valid"`.  Errors of any other class are not caught
by the `except` clause at all, which is observationally the same as
failing this test and re-raising. -/
def isDocDataNotValid : Exc → Bool
  | .dbBadRequest msg => strContains "document data is not valid" msg
  | _ => false

/-- Does an attempt outcome fail with the retry-worthy error. -/
def failsValid {α : Type} : Except Exc α → Bool
  | .error e => isDocDataNotValid e
  | .ok _ => false

/-- `FaunaClient._execute_create_with_retries`
(`sqlalchemy_fauna/fauna/client.py`): query the database; on a
`BadRequest` whose message contains `"document data is not valid"` and
with fewer than 10 retries so far, sleep `retries` seconds and retry with
`retries + 1`; otherwise re-raise.  The database is modelled as an oracle
per attempt number; the second component records the sleep durations in
order. -/
def execCreateWithRetries {α : Type} (db : Nat → Except Exc α) (retries : Nat) :
    Except Exc α × List Nat :=
  match db retries with
  | .ok v => (.ok v, [])
  | .error e =>
    if h : isDocDataNotValid e = true ∧ retries < 10 then
      let r := execCreateWithRetries db (retries + 1)
      (r.1, retries :: r.2)
    else (.error e, [])
termination_by 10 - retries
decreasing_by omega

theorem execCreateWithRetries_ok_of_run {α : Type} (db : Nat → Except Exc α) :
    ∀ n r v, r + n ≤ 10 → (∀ i, i < n → failsValid (db (r + i)) = true) →
      db (r + n) = .ok v →
      execCreateWithRetries db r = (.ok v, List.range' r n) := by
  intro n
  induction n with
  | zero =>
    intro r v _ _ hok
    rw [execCreateWithRetries]
    simp only [Nat.add_zero] at hok
    simp [hok, List.range']
  | succ n ih =>
    intro r v hle hfail hok
    have h0 : failsValid (db r) = true := by
      have := hfail 0 (Nat.succ_pos n)
      simpa using this
    rw [execCreateWithRetries]
    cases hdb : db r with
    | ok w => rw [hdb] at h0; simp [failsValid] at h0
    | error e =>
      rw [hdb] at h0
      have hvalid : isDocDataNotValid e = true := h0
      have hr : r < 10 := by omega
      have hrec : execCreateWithRetries db (r + 1) = (.ok v, List.range' (r + 1) n) := by
        apply ih (r + 1) v (by omega)
        · intro i hi
          have := hfail (i + 1) (by omega)
          simpa [Nat.add_comm, Nat.add_assoc, Nat.add_left_comm] using this
        · have harr : r + 1 + n = r + (n + 1) := by omega
          rw [harr]; exact hok
      simp [hvalid, hr, hrec]
      rfl

theorem execCreateWithRetries_error_mid {α : Type} (db : Nat → Except Exc α) :
    ∀ n r e, r + n ≤ 10 → (∀ i, i < n → failsValid (db (r + i)) = true) →
      db (r + n) = .error e → isDocDataNotValid e = false →
      execCreateWithRetries db r = (.error e, List.range' r n) := by
  intro n
  induction n with
  | zero =>
    intro r e _ _ herr hinvalid
    rw [execCreateWithRetries]
    simp only [Nat.add_zero] at herr
    simp [herr, hinvalid, List.range']
  | succ n ih =>
    intro r e hle hfail herr hinvalid
    have h0 : failsValid (db r) = true := by
      have := hfail 0 (Nat.succ_pos n)
      simpa using this
    rw [execCreateWithRetries]
    cases hdb : db r with
    | ok w => rw [hdb] at h0; simp [failsValid] at h0
    | error e0 =>
      rw [hdb] at h0
      have hvalid : isDocDataNotValid e0 = true := h0
      have hr : r < 10 := by omega
      have hrec : execCreateWithRetries db (r + 1) = (.error e, List.range' (r + 1) n) := by
        apply ih (r + 1) e (by omega)
        · intro i hi
          have := hfail (i + 1) (by omega)
          simpa [Nat.add_comm, Nat.add_assoc, Nat.add_left_comm] using this
        · have harr : r + 1 + n = r + (n + 1) := by omega
          rw [harr]; exact herr
        · exact hinvalid
      simp [hvalid, hr, hrec]
      rfl

theorem execCreateWithRetries_error_at_cap {α : Type} (db : Nat → Except Exc α) :
    ∀ n r, r + n = 10 → (∀ i, i ≤ n → failsValid (db (r + i)) = true) →
      execCreateWithRetries db r = (db 10, List.range' r n) := by
  intro n
  induction n with
  | zero =>
    intro r hr hfail
    have h0 : failsValid (db r) = true := by simpa using hfail 0 (Nat.le_refl 0)
    have hr10 : r = 10 := by omega
    subst hr10
    rw [execCreateWithRetries]
    cases hdb : db 10 with
    | ok w => rw [hdb] at h0; simp [failsValid] at h0
    | error e =>
      rw [hdb] at h0
      simp [List.range']
  | succ n ih =>
    intro r hr hfail
    have h0 : failsValid (db r) = true := by simpa using hfail 0 (Nat.zero_le _)
    rw [execCreateWithRetries]
    cases hdb : db r with
    | ok w => rw [hdb] at h0; simp [failsValid] at h0
    | error e =>
      rw [hdb] at h0
      have hr' : r < 10 := by omega
      have hvalid : isDocDataNotValid e = true := h0
      have hrec : execCreateWithRetries db (r + 1) = (db 10, List.range' (r + 1) n) := by
        apply ih (r + 1) (by omega)
        intro i hi
        have := hfail (i + 1) (by omega)
        simpa [Nat.add_comm, Nat.add_assoc, Nat.add_left_comm] using this
      simp [hvalid, hr', hrec]
      rfl

/-- C6: the retry policy of CREATE execution.  An expression failing with
a `BadRequest` containing `"document data is not valid"` is retried up to
10 times, sleeping `retries` seconds before each retry (0s, 1s, 2s, ...);
an error without that message propagates unchanged at whichever attempt
it occurs, with no further retry; and when all 11 attempts (the initial
one and the 10 retries) fail with the retry-worthy error, the failure of
the last attempt propagates after the sleeps 0..9. -/
theorem create_retry_policy {α : Type} (db : Nat → Except Exc α) :
    (∀ n e, n ≤ 10 → (∀ i, i < n → failsValid (db i) = true) → db n = .error e →
        isDocDataNotValid e = false →
        execCreateWithRetries db 0 = (.error e, List.range n))
      ∧ (∀ n v, n ≤ 10 → (∀ i, i < n → failsValid (db i) = true) → db n = .ok v →
          execCreateWithRetries db 0 = (.ok v, List.range n))
      ∧ ((∀ i, i ≤ 10 → failsValid (db i) = true) →
          execCreateWithRetries db 0 = (db 10, List.range 10)) := by
  refine ⟨?_, ?_, ?_⟩
  · intro n e hn hfail herr hinvalid
    have := execCreateWithRetries_error_mid db n 0 e (by omega) (by simpa using hfail)
      (by simpa using herr) hinvalid
    simpa [List.range_eq_range'] using this
  · intro n v hn hfail hok
    have := execCreateWithRetries_ok_of_run db n 0 v (by omega) (by simpa using hfail)
      (by simpa using hok)
    simpa [List.range_eq_range'] using this
  · intro hfail
    have := execCreateWithRetries_error_at_cap db 10 0 (by omega) (by simpa using hfail)
    simpa [List.range_eq_range'] using this

/-- Witness for C6: a database that fails the first two attempts with the
retry-worthy `BadRequest` and succeeds on the third leads to success with
sleeps `[0, 1]`. -/
theorem create_retry_policy_witness :
    execCreateWithRetries
        (fun i => if i < 2 then (.error (.dbBadRequest "document data is not valid")
          : Except Exc Nat) else .ok 7) 0 = (.ok 7, List.range 2) :=
  (create_retry_policy _).2.1 2 7 (by decide) (by decide) rfl

/-! ## CREATE TABLE: column-definition parsing and emission (C2, C4) -/

/-- Per-column field metadata (`FieldMetadata` of `create.py`): the four
default keys `unique`, `not_null`, `default`, `type`, plus the optional
`references: {table: column}` entry added by foreign-key constraints. -/
structure FieldData where
  unique : Bool
  not_null : Bool
  defaultVal : Option Value
  dtype : String
  references : Option (String × String)
deriving DecidableEq

/-- `DEFAULT_FIELD_METADATA` of the source. -/
def defaultFieldMetadata : FieldData :=
  { unique := false, not_null := false, defaultVal := none, dtype := "", references := none }

/-- Fields metadata: an insertion-ordered dictionary from column names to
field metadata, as python dicts behave. -/
abbrev Meta := List (String × FieldData)

/-- Python dict lookup. -/
def metaLookup : Meta → String → Option FieldData
  | [], _ => none
  | (k', fd) :: rest, k => if k' = k then some fd else metaLookup rest k

/-- Python dict assignment: replace in place, keeping the original
position, or append a new key at the end. -/
def metaUpsert : Meta → String → FieldData → Meta
  | [], k, fd => [(k, fd)]
  | (k', fd') :: rest, k, fd =>
    if k' = k then (k', fd) :: rest else (k', fd') :: metaUpsert rest k fd

/-- `DATA_TYPE_MAP` of `create.py`, in full. -/
def dataTypeMap : String → Option String
  | "CHAR" => some "String"
  | "VARCHAR" => some "String"
  | "BINARY" => some "String"
  | "VARBINARY" => some "String"
  | "TINYBLOB" => some "String"
  | "TINYTEXT" => some "String"
  | "TEXT" => some "String"
  | "BLOB" => some "String"
  | "MEDIUMTEXT" => some "String"
  | "MEDIUMBLOB" => some "String"
  | "LONGTEXT" => some "String"
  | "LONGBLOB" => some "String"
  | "ENUM" => some "String"
  | "SET" => some "String"
  | "BIT" => some "Integer"
  | "TINYINT" => some "Integer"
  | "SMALLINT" => some "Integer"
  | "MEDIUMINT" => some "Integer"
  | "INT" => some "Integer"
  | "INTEGER" => some "Integer"
  | "BIGINT" => some "Integer"
  | "FLOAT" => some "Float"
  | "DOUBLE" => some "Float"
  | "DOUBLE PRECISION" => some "Float"
  | "DECIMAL" => some "Float"
  | "DEC" => some "Float"
  | "BOOL" => some "Boolean"
  | "BOOLEAN" => some "Boolean"
  | "YEAR" => some "Integer"
  | "DATE" => some "Date"
  | "DATETIME" => some "TimeStamp"
  | "TIMESTAMP" => some "TimeStamp"
  | "TIME" => some "String"
  | _ => none

/-- The value of a leaf `Name` token, `none` for every other token.  The
`token_next_by(t=Name)` walks of the source are exactly "skip tokens until
the next `Name` leaf". -/
def asName : Tok → Option String
  | .atom .Name v => some v
  | _ => none

/-- Name values of a token list in order. -/
def nameVals (l : List Tok) : List String :=
  l.filterMap asName

/-- Index of the first token satisfying a predicate (`token_next_by`
returning an index). -/
def findIdxP (p : Tok → Bool) : List Tok → Option Nat
  | [] => none
  | t :: rest => if p t then some 0 else (findIdxP p rest).map (· + 1)

/-- The entry written for a primary-key column:
`{**DEFAULT_FIELD_METADATA, **metadata.get(name, {}), unique: True,
not_null: True}`. -/
def pkEntry (m : Meta) (v : String) : FieldData :=
  { (metaLookup m v).getD defaultFieldMetadata with unique := true, not_null := true }

/-- The marking loop of `_define_primary_key`: repeatedly find the next
`Name` token; stop at the end or at the name `id` (the source `break`s
there, so names after `id` are not processed); mark every other name
`unique=True, not_null=True`. -/
def pkMarkLoop (m : Meta) : List Tok → Meta
  | [] => m
  | t :: rest =>
    match asName t with
    | some v => if v = "id" then m else pkMarkLoop (metaUpsert m v (pkEntry m v)) rest
    | none => pkMarkLoop m rest

/-- `_define_primary_key` of
`sqlalchemy_fauna/fauna/translation/create.py` (the legacy
`FaunadbClient._define_primary_key` is identical up to the wording of the
error message): find a `CONSTRAINT` keyword, then a `PRIMARY` keyword
after it (the source computes the start of that search as `idx or -1`, so
a `CONSTRAINT` at index 0 restarts the search from the beginning);
`CONSTRAINT` without `PRIMARY` raises `NotSupported`; no `PRIMARY`, or
`PRIMARY` not followed by any `Name` token, defers to the other
definition handlers; otherwise run the marking loop on the tokens after
`PRIMARY`. -/
def definePrimaryKey (m : Meta) (g : List Tok) : Except Exc (Option Meta) :=
  let constraintIdx := findIdxP (·.matchTV .Keyword "CONSTRAINT") g
  let pkSearchStart : Nat :=
    match constraintIdx with
    | none => 0
    | some i => if i = 0 then 0 else i + 1
  let primaryIdx :=
    (findIdxP (·.matchTV .Keyword "PRIMARY") (g.drop pkSearchStart)).map (· + pkSearchStart)
  if constraintIdx.isSome && primaryIdx.isNone then
    .error (.notSupported
      "When a column definition clause begins with CONSTRAINT, only a PRIMARY KEY constraint is supported")
  else
    match primaryIdx with
    | none => .ok none
    | some i =>
      if (findIdxP (·.isTType .Name) (g.drop (i + 1))).isNone then .ok none
      else .ok (some (pkMarkLoop m (g.drop (i + 1))))

/-- The entry written for a unique-constraint column. -/
def uniqueEntry (m : Meta) (v : String) : FieldData :=
  { (metaLookup m v).getD defaultFieldMetadata with unique := true }

/-- The marking loop of `_define_unique_constraint` (same structure as the
primary-key loop, marking `unique=True` only). -/
def uniqueMarkLoop (m : Meta) : List Tok → Meta
  | [] => m
  | t :: rest =>
    match asName t with
    | some v => if v = "id" then m else uniqueMarkLoop (metaUpsert m v (uniqueEntry m v)) rest
    | none => uniqueMarkLoop m rest

/-- `_define_unique_constraint` of `create.py`. -/
def defineUniqueConstraint (m : Meta) (g : List Tok) : Option Meta :=
  match findIdxP (·.matchTV .Keyword "UNIQUE") g with
  | none => none
  | some i =>
    if (findIdxP (·.isTType .Name) (g.drop (i + 1))).isNone then none
    else some (uniqueMarkLoop m (g.drop (i + 1)))

/-- `_define_foreign_key_constraint` of `create.py`: after the `FOREIGN`
keyword the source matches the token `KEY` as a plain `Name` token (so the
tokenizer classifies the word `KEY` before a parenthesis as a name; this
match succeeding is required for any foreign key to translate at all),
then reads the constrained column, the `REFERENCES` keyword, the
referenced table and the referenced column.  A missing piece makes the
source walk from a `None` index and crash; the column `id` is not
special-cased here. -/
def defineForeignKey (m : Meta) (g : List Tok) : Except Exc (Option Meta) :=
  match findTok g (·.matchTV .Keyword "FOREIGN") with
  | none => .ok none
  | some (_, r1) =>
    match findTok r1 (·.matchTV .Name "KEY") with
    | none => .error (.pyError "TypeError")
    | some (_, r2) =>
      match findTok r2 (·.isTType .Name) with
      | none => .error (.pyError "AttributeError")
      | some (colTok, r3) =>
        match findTok r3 (·.matchTV .Keyword "REFERENCES") with
        | none => .error (.pyError "TypeError")
        | some (_, r4) =>
          match findTok r4 (·.isTType .Name) with
          | none => .error (.pyError "AttributeError")
          | some (refTable, r5) =>
            match findTok r5 (·.isTType .Name) with
            | none => .error (.pyError "AttributeError")
            | some (refCol, _) =>
              .ok (some (metaUpsert m colTok.value
                { (metaLookup m colTok.value).getD defaultFieldMetadata with
                    references := some (refTable.value, refCol.value) }))

/-- `_define_column` of `create.py`: the first `Name` token is the column
(the column `id` is ignored entirely), the next `Name` token is the data
type; `CHECK` is rejected; `NOT NULL`, `UNIQUE`, `PRIMARY KEY` (a single
keyword token in inline position) and existing metadata determine the
flags; the data type goes through `DATA_TYPE_MAP` (an unknown type is a
`KeyError`).  The `DEFAULT` branch of the source passes the keyword's own
string value to `extract_value`; no claim exercises it, and it is
modelled as extracting from that string. -/
def defineColumn (m : Meta) (g : List Tok) : Except Exc Meta :=
  match findTok g (·.isTType .Name) with
  | none => .error (.pyError "AttributeError")
  | some (col, afterCol) =>
    if col.value = "id" then .ok m
    else
      match findTok afterCol (·.isTType .Name) with
      | none => .error (.pyError "AttributeError")
      | some (dataType, _) =>
        if (findTok g (·.matchTV .Keyword "CHECK")).isSome then
          .error (.notSupported "CHECK keyword is not supported.")
        else
          let existing := metaLookup m col.value
          let isPrimaryKey := (findTok g (·.matchTV .Keyword "PRIMARY KEY")).isSome
          let isNotNull :=
            (findTok g (·.matchTV .Keyword "NOT NULL")).isSome || isPrimaryKey
              || (existing.map (·.not_null)).getD false
          let isUnique :=
            (findTok g (·.matchTV .Keyword "UNIQUE")).isSome || isPrimaryKey
              || (existing.map (·.unique)).getD false
          let defaultV :=
            if (findTok g (·.matchTV .Keyword "DEFAULT")).isSome
            then some (extractValueSpec "DEFAULT") else none
          match dataTypeMap dataType.value with
          | none => .error (.pyError "KeyError")
          | some canonical =>
            .ok (metaUpsert m col.value
              { existing.getD defaultFieldMetadata with
                  unique := isUnique, not_null := isNotNull,
                  defaultVal := defaultV, dtype := canonical })

/-- Python truthiness of the `or`-chain of `_build_fields_metadata`: a
handler returning `None` or an empty dict defers to the next handler. -/
def orFalsy : Option Meta → Option Meta
  | some [] => none
  | r => r

/-- `_build_fields_metadata` of `create.py`: the `or`-chain
primary-key, unique-constraint, foreign-key, ordinary-column. -/
def buildFieldsMetadata (m : Meta) (g : List Tok) : Except Exc Meta := do
  match orFalsy (← definePrimaryKey m g) with
  | some m' => pure m'
  | none =>
    match orFalsy (defineUniqueConstraint m g) with
    | some m' => pure m'
    | none =>
      match orFalsy (← defineForeignKey m g) with
      | some m' => pure m'
      | none => defineColumn m g

/-- `_split_column_identifiers_by_comma` of `create.py`: split the
flattened column tokens at every comma (the commas themselves are
dropped). -/
def splitOnCommas : List Tok → List (List Tok)
  | [] => [[]]
  | t :: rest =>
    if t.matchTV .Punct "," then [] :: splitOnCommas rest
    else
      match splitOnCommas rest with
      | [] => [[t]]
      | g :: gs => (t :: g) :: gs

/-- `_extract_column_definitions` of `create.py`: `reduce` of
`_build_fields_metadata` over the comma-split groups, starting from the
empty metadata. -/
def extractColumnDefinitions (colToks : List Tok) : Except Exc Meta :=
  (splitOnCommas colToks).foldlM buildFieldsMetadata []

/-- The `create_index` expression emitted for one indexed field:
name `<table>_by_<field>`, source the collection, terms
`[{field: ["data", <field>]}]`, unique flag of the field. -/
def mkFieldIndexQ (t f : String) (fd : FieldData) : Q :=
  .fn "create_index"
    [.obj [("name", .str (t ++ "_by_" ++ f)),
           ("source", .fn "collection" [.str t]),
           ("terms", .arr [.obj [("field", .arr [.str "data", .str f])]]),
           ("unique", .bool fd.unique)]]

/-- The field-index loop of `_translate_create_table`: fields named `id`
and fields that are neither unique nor foreign keys are skipped. -/
def buildIndexQueries (t : String) : Meta → List Q
  | [] => []
  | (f, fd) :: rest =>
    if f == "id" || !(fd.unique || fd.references.isSome) then buildIndexQueries t rest
    else mkFieldIndexQ t f fd :: buildIndexQueries t rest

/-- A default-or-value as an FQL leaf (python `None` serializes to null). -/
def valueOptToQ : Option Value → Q
  | none => .null
  | some v => valueToQ v

/-- One field's metadata as the emitted dict: the four default keys in
insertion order, then `references` when present. -/
def fieldDataToQ (fd : FieldData) : Q :=
  .obj ([("unique", .bool fd.unique), ("not_null", .bool fd.not_null),
         ("default", valueOptToQ fd.defaultVal), ("type", .str fd.dtype)]
    ++ (match fd.references with
        | some (rt, rc) => [("references", .obj [(rt, .str rc)])]
        | none => []))

/-- Fields metadata as the emitted dict. -/
def metaToQ (m : Meta) : Q :=
  .obj (m.map (fun p => (p.1, fieldDataToQ p.2)))

/-- The first emitted expression of `_translate_create_table`:
`create_collection({name, data: {metadata: {fields: <metadata>}}})`. -/
def createCollectionQ (t : String) (m : Meta) : Q :=
  .fn "create_collection"
    [.obj [("name", .str t),
           ("data", .obj [("metadata", .obj [("fields", metaToQ m)])])]]

/-- The `all_<table>` index expression. -/
def allIndexQ (t : String) : Q :=
  .fn "create_index" [.obj [("name", .str ("all_" ++ t)), ("source", .fn "collection" [.str t])]]

/-- `_translate_create_table` of `create.py`, from the parsed table name
and the flattened column-definition tokens: extract the fields metadata,
then emit exactly two expressions, the `create_collection` and one
compound `do` holding the `all_<table>` index, the per-field indexes and
finally the collection reference (the source passes the list of index
expressions to `q.do`). -/
def translateCreateTable (t : String) (colToks : List Tok) : Except Exc (List Q) :=
  match extractColumnDefinitions colToks with
  | .error e => .error e
  | .ok meta =>
    .ok [createCollectionQ t meta,
         .fn "do" (allIndexQ t :: buildIndexQueries t meta ++ [.fn "collection" [.str t]])]

/-- The index name declared by a `create_index` expression. -/
def indexNameOfQ : Q → Option String
  | .fn "create_index" args =>
    match args with
    | [.obj fields] =>
      match fields.lookup "name" with
      | some (.str s) => some s
      | _ => none
    | _ => none
  | _ => none

/-- Names of the indexes created by a compound `do` expression. -/
def indexNamesOfDo : Q → List String
  | .fn "do" items => items.filterMap indexNameOfQ
  | _ => []

/-- The index-name set asserted by the claim:
`{all_T} ∪ {T_by_f : f unique or f has references}`, with no exception
for the field `id`. -/
def claimedIndexNames (t : String) (m : Meta) : List String :=
  ("all_" ++ t)
    :: (m.filter (fun p => p.2.unique || p.2.references.isSome)).map
        (fun p => t ++ "_by_" ++ p.1)

/-! ## Dictionary and marking-loop lemmas -/

theorem metaLookup_metaUpsert_self (m : Meta) (k : String) (fd : FieldData) :
    metaLookup (metaUpsert m k fd) k = some fd := by
  induction m with
  | nil => simp [metaUpsert, metaLookup]
  | cons p rest ih =>
    obtain ⟨k', fd'⟩ := p
    by_cases h : k' = k <;> simp [metaUpsert, metaLookup, h, ih]

theorem metaLookup_metaUpsert_ne (m : Meta) (k k' : String) (fd : FieldData)
    (h : k' ≠ k) : metaLookup (metaUpsert m k fd) k' = metaLookup m k' := by
  induction m with
  | nil => simp [metaUpsert, metaLookup, Ne.symm h]
  | cons p rest ih =>
    obtain ⟨k0, fd0⟩ := p
    by_cases h0 : k0 = k
    · subst h0
      simp [metaUpsert, metaLookup, Ne.symm h]
    · simp [metaUpsert, metaLookup, h0, ih]

theorem pkMarkLoop_lookup_id :
    ∀ (l : List Tok) (m : Meta), metaLookup (pkMarkLoop m l) "id" = metaLookup m "id" := by
  intro l
  induction l with
  | nil => intro m; rfl
  | cons t rest ih =>
    intro m
    cases ht : asName t with
    | none => simp [pkMarkLoop, ht, ih]
    | some v =>
      by_cases hid : v = "id"
      · simp [pkMarkLoop, ht, hid]
      · rw [show pkMarkLoop m (t :: rest) = pkMarkLoop (metaUpsert m v (pkEntry m v)) rest by
          simp [pkMarkLoop, ht, hid]]
        rw [ih]
        exact metaLookup_metaUpsert_ne _ _ _ _ (fun hh => hid hh.symm)

theorem pkMarkLoop_preserves_marked :
    ∀ (l : List Tok) (m : Meta) (c : String) (fd : FieldData),
      metaLookup m c = some fd → fd.unique = true → fd.not_null = true →
      ∃ fd', metaLookup (pkMarkLoop m l) c = some fd'
        ∧ fd'.unique = true ∧ fd'.not_null = true := by
  intro l
  induction l with
  | nil => intro m c fd h hu hn; exact ⟨fd, h, hu, hn⟩
  | cons t rest ih =>
    intro m c fd h hu hn
    cases ht : asName t with
    | none =>
      rw [show pkMarkLoop m (t :: rest) = pkMarkLoop m rest by simp [pkMarkLoop, ht]]
      exact ih m c fd h hu hn
    | some v =>
      by_cases hid : v = "id"
      · rw [show pkMarkLoop m (t :: rest) = m by simp [pkMarkLoop, ht, hid]]
        exact ⟨fd, h, hu, hn⟩
      · rw [show pkMarkLoop m (t :: rest) = pkMarkLoop (metaUpsert m v (pkEntry m v)) rest by
          simp [pkMarkLoop, ht, hid]]
        by_cases hvc : v = c
        · subst hvc
          exact ih _ v (pkEntry m v) (metaLookup_metaUpsert_self m v _) rfl rfl
        · refine ih _ c fd ?_ hu hn
          rw [metaLookup_metaUpsert_ne _ _ _ _ (fun hh => hvc hh.symm)]
          exact h

theorem pkMarkLoop_marks (c : String) :
    ∀ (l : List Tok) (m : Meta),
      c ∈ (nameVals l).takeWhile (fun s => s != "id") →
      ∃ fd, metaLookup (pkMarkLoop m l) c = some fd
        ∧ fd.unique = true ∧ fd.not_null = true := by
  intro l
  induction l with
  | nil => intro m hc; simp [nameVals] at hc
  | cons t rest ih =>
    intro m hc
    cases ht : asName t with
    | none =>
      rw [show pkMarkLoop m (t :: rest) = pkMarkLoop m rest by simp [pkMarkLoop, ht]]
      refine ih m ?_
      simpa [nameVals, List.filterMap_cons, ht] using hc
    | some v =>
      have hnv : nameVals (t :: rest) = v :: nameVals rest := by
        simp [nameVals, List.filterMap_cons, ht]
      rw [hnv] at hc
      by_cases hid : v = "id"
      · subst hid
        simp [List.takeWhile_cons] at hc
      · have hvne : (v != "id") = true := by simpa using hid
        rw [List.takeWhile_cons, if_pos hvne] at hc
        rw [show pkMarkLoop m (t :: rest) = pkMarkLoop (metaUpsert m v (pkEntry m v)) rest by
          simp [pkMarkLoop, ht, hid]]
        rcases List.mem_cons.mp hc with hceq | hctail
        · subst hceq
          exact pkMarkLoop_preserves_marked rest _ c (pkEntry m c)
            (metaLookup_metaUpsert_self m c _) rfl rfl
        · exact ih _ hctail

theorem findIdxP_none_of_forall (p : Tok → Bool) :
    ∀ l : List Tok, (∀ x ∈ l, p x = false) → findIdxP p l = none := by
  intro l
  induction l with
  | nil => intro _; rfl
  | cons t rest ih =>
    intro h
    have ht := h t (List.mem_cons_self t rest)
    simp [findIdxP, ht, ih (fun x hx => h x (List.mem_cons_of_mem t hx))]

/-! ## C4: primary-key column definitions -/

/-- The comma-separated column names of a parenthesised constraint column
list, as leaf tokens. -/
def commaSeparated : List String → List Tok
  | [] => []
  | [c] => [.atom .Name c]
  | c :: rest => .atom .Name c :: .atom .Punct "," :: commaSeparated rest

/-- A column-definition sub-group of the form `PRIMARY KEY (cols...)`:
the `PRIMARY` keyword, the word `KEY` (a `Name` leaf for the tokenizer,
which is what the foreign-key walker of the same file relies on), and the
parenthesised comma-separated column names. -/
def mkPKGroup (cols : List String) : List Tok :=
  .atom .Keyword "PRIMARY" :: .atom .Name "KEY" :: .atom .Punct "("
    :: (commaSeparated cols ++ [.atom .Punct ")"])

theorem commaSeparated_shape (cols : List String) :
    ∀ tk ∈ commaSeparated cols, (∃ c, tk = Tok.atom .Name c) ∨ tk = .atom .Punct "," := by
  induction cols with
  | nil => simp [commaSeparated]
  | cons c rest ih =>
    cases rest with
    | nil =>
      intro tk htk
      simp [commaSeparated] at htk
      exact .inl ⟨c, htk⟩
    | cons c2 r2 =>
      intro tk htk
      rcases htk with _ | ⟨_, (_ | ⟨_, hmem⟩)⟩
      · exact .inl ⟨c, rfl⟩
      · exact .inr rfl
      · exact ih tk hmem

theorem nameVals_commaSeparated (cols : List String) :
    nameVals (commaSeparated cols) = cols := by
  induction cols with
  | nil => rfl
  | cons c rest ih =>
    cases rest with
    | nil => rfl
    | cons c2 r2 =>
      show nameVals (Tok.atom .Name c :: Tok.atom .Punct "," :: commaSeparated (c2 :: r2)) = _
      simp [nameVals, List.filterMap_cons, asName] at ih ⊢
      exact ih

theorem definePrimaryKey_mkPKGroup (m : Meta) (cols : List String) :
    definePrimaryKey m (mkPKGroup cols) =
      .ok (some (pkMarkLoop m
        (Tok.atom .Name "KEY" :: Tok.atom .Punct "("
          :: (commaSeparated cols ++ [Tok.atom .Punct ")"])))) := by
  have hcon : findIdxP (·.matchTV .Keyword "CONSTRAINT") (mkPKGroup cols) = none := by
    apply findIdxP_none_of_forall
    intro tk htk
    rcases htk with _ | ⟨_, (_ | ⟨_, (_ | ⟨_, hmem⟩)⟩)⟩
    · rfl
    · rfl
    · rfl
    · rcases List.mem_append.mp hmem with hmid | hlast
      · rcases commaSeparated_shape cols tk hmid with ⟨c, rfl⟩ | rfl <;> rfl
      · rcases hlast with _ | ⟨_, h⟩
        · rfl
        · cases h
  simp only [definePrimaryKey, hcon]
  rfl

/-- C4 counterexample: the claim asserts that every column listed in a
`PRIMARY KEY (cols...)` sub-group is marked `unique=true, not_null=true`.
On the sub-group `PRIMARY KEY (id, name)` the marking loop of
`_define_primary_key` hits the name `id` and `break`s, so the listed
column `name` is never marked (the only entry written is the one for the
word `KEY`, the first `Name` token after `PRIMARY`). -/
theorem primary_key_after_id_unmarked_counterexample :
    ∃ M, definePrimaryKey [] (mkPKGroup ["id", "name"]) = .ok (some M)
      ∧ metaLookup M "name" = none :=
  ⟨[("KEY", { unique := true, not_null := true, defaultVal := none,
              dtype := "", references := none })], rfl, rfl⟩

/-- C4 amended: for a column-definition sub-group `PRIMARY KEY (cols...)`,
every listed column that precedes the first occurrence of `id` in the
column list is marked `unique=true, not_null=true` (columns from `id`
onwards are left unprocessed by the `break`); the column `id` itself is
never added to the metadata; and a sub-group containing `CONSTRAINT` but
no `PRIMARY` keyword raises `NotSupported`. -/
theorem primary_key_marking_amended (m : Meta) (cols : List String) :
    (∀ c, c ∈ cols.takeWhile (fun s => s != "id") →
        ∃ M fd, definePrimaryKey m (mkPKGroup cols) = .ok (some M)
          ∧ metaLookup M c = some fd ∧ fd.unique = true ∧ fd.not_null = true)
      ∧ (∀ M, definePrimaryKey m (mkPKGroup cols) = .ok (some M) →
          metaLookup M "id" = metaLookup m "id")
      ∧ (∀ g : List Tok, (findIdxP (·.matchTV .Keyword "CONSTRAINT") g).isSome = true →
          (∀ tk ∈ g, tk.matchTV .Keyword "PRIMARY" = false) →
          definePrimaryKey m g = .error (.notSupported
            "When a column definition clause begins with CONSTRAINT, only a PRIMARY KEY constraint is supported")) := by
  refine ⟨?_, ?_, ?_⟩
  · intro c hc
    have hmem : c ∈ (nameVals (Tok.atom .Name "KEY" :: Tok.atom .Punct "("
        :: (commaSeparated cols ++ [Tok.atom .Punct ")"]))).takeWhile (fun s => s != "id") := by
      have hnv : nameVals (Tok.atom .Name "KEY" :: Tok.atom .Punct "("
          :: (commaSeparated cols ++ [Tok.atom .Punct ")"])) = "KEY" :: cols := by
        simp [nameVals, List.filterMap_cons, List.filterMap_append, asName]
        simpa [nameVals] using nameVals_commaSeparated cols
      rw [hnv, List.takeWhile_cons]
      simp only [if_pos (by decide : (("KEY" : String) != "id") = true)]
      exact List.mem_cons_of_mem _ hc
    obtain ⟨fd, hfd, hu, hn⟩ := pkMarkLoop_marks c _ m hmem
    exact ⟨_, fd, definePrimaryKey_mkPKGroup m cols, hfd, hu, hn⟩
  · intro M hM
    rw [definePrimaryKey_mkPKGroup m cols] at hM
    cases hM
    exact pkMarkLoop_lookup_id _ m
  · intro g hcon hnopk
    have hp : ∀ start, findIdxP (·.matchTV .Keyword "PRIMARY") (g.drop start) = none := by
      intro start
      apply findIdxP_none_of_forall
      intro x hx
      exact hnopk x (List.mem_of_mem_drop hx)
    rcases hc : findIdxP (·.matchTV .Keyword "CONSTRAINT") g with _ | i
    · rw [hc] at hcon; simp at hcon
    · simp only [definePrimaryKey, hc, hp]
      simp

/-- Witness for C4: on `PRIMARY KEY (name, id, age)` the column `name`
(listed before `id`) is marked unique and not-null, and a `CONSTRAINT`
group without `PRIMARY` raises `NotSupported`. -/
theorem primary_key_marking_amended_witness :
    (∃ M fd, definePrimaryKey [] (mkPKGroup ["name", "id", "age"]) = .ok (some M)
        ∧ metaLookup M "name" = some fd ∧ fd.unique = true ∧ fd.not_null = true)
      ∧ definePrimaryKey [] [Tok.atom .Keyword "CONSTRAINT", Tok.atom .Name "x"] =
          .error (.notSupported
            "When a column definition clause begins with CONSTRAINT, only a PRIMARY KEY constraint is supported") :=
  ⟨(primary_key_marking_amended [] ["name", "id", "age"]).1 "name" (by decide),
   (primary_key_marking_amended [] ["name", "id", "age"]).2.2
     [Tok.atom .Keyword "CONSTRAINT", Tok.atom .Name "x"] (by decide) (by decide)⟩

/-! ## C2: CREATE TABLE emission -/

theorem buildIndexQueries_eq_filter_map (t : String) (m : Meta) :
    buildIndexQueries t m =
      (m.filter (fun p => (p.1 != "id") && (p.2.unique || p.2.references.isSome))).map
        (fun p => mkFieldIndexQ t p.1 p.2) := by
  induction m with
  | nil => rfl
  | cons p rest ih =>
    obtain ⟨f, fd⟩ := p
    by_cases h1 : f = "id"
    · simp [buildIndexQueries, List.filter_cons, h1, ih]
    · by_cases h2 : (fd.unique || fd.references.isSome) = true
      · simp [buildIndexQueries, List.filter_cons, h1, h2, ih]
      · simp [buildIndexQueries, List.filter_cons, h1, h2, ih]

theorem filterMap_indexName_mkFieldIndexQ (t : String) (l : Meta) :
    (l.map (fun p => mkFieldIndexQ t p.1 p.2)).filterMap indexNameOfQ =
      l.map (fun p => t ++ "_by_" ++ p.1) := by
  induction l with
  | nil => rfl
  | cons p rest ih =>
    have hhead : indexNameOfQ (mkFieldIndexQ t p.1 p.2) = some (t ++ "_by_" ++ p.1) := rfl
    simp only [List.map_cons, List.filterMap_cons, hhead, ih]

theorem indexNamesOfDo_emission (t : String) (m : Meta) :
    indexNamesOfDo (.fn "do" (allIndexQ t :: buildIndexQueries t m
        ++ [.fn "collection" [.str t]])) =
      ("all_" ++ t)
        :: (m.filter (fun p => (p.1 != "id") && (p.2.unique || p.2.references.isSome))).map
            (fun p => t ++ "_by_" ++ p.1) := by
  have hall : indexNameOfQ (allIndexQ t) = some ("all_" ++ t) := rfl
  have hcoll : indexNameOfQ (.fn "collection" [.str t]) = none := rfl
  rw [buildIndexQueries_eq_filter_map]
  simp only [indexNamesOfDo, List.filterMap_cons, List.filterMap_append, hall, hcoll,
    filterMap_indexName_mkFieldIndexQ, List.filterMap_nil, List.append_nil]

/-- C2 amended: `translate_create` on a CREATE TABLE statement emits
exactly two expressions run sequentially: the `create_collection` with
the parsed fields metadata under `data.metadata.fields`, then one `do`
holding the `all_<table>` index, one `<table>_by_<field>` index (terms
`[{field: ["data", field]}]`, unique flag of the field) for every field
that is unique or has references other than the field named `id`, and the
collection reference; hence the emitted index-name set equals
`{all_T} ∪ {T_by_f : f ≠ id ∧ (f unique ∨ f references)}`.  The field
`id` must be excluded from the set formula: a `FOREIGN KEY (id)
REFERENCES ...` clause puts `id` with references into the metadata, yet
the emission loop skips it (see the counterexample). -/
theorem create_table_emission_amended (t : String) (colToks : List Tok) (meta : Meta)
    (h : extractColumnDefinitions colToks = .ok meta) :
    translateCreateTable t colToks =
        .ok [createCollectionQ t meta,
             .fn "do" (allIndexQ t
               :: (meta.filter (fun p => (p.1 != "id")
                     && (p.2.unique || p.2.references.isSome))).map
                    (fun p => mkFieldIndexQ t p.1 p.2)
               ++ [.fn "collection" [.str t]])]
      ∧ (∀ n, n ∈ indexNamesOfDo (.fn "do" (allIndexQ t :: buildIndexQueries t meta
            ++ [.fn "collection" [.str t]])) ↔
          (n = "all_" ++ t ∨ ∃ f fd, (f, fd) ∈ meta ∧ f ≠ "id"
            ∧ (fd.unique = true ∨ fd.references.isSome = true)
            ∧ n = t ++ "_by_" ++ f)) := by
  constructor
  · simp [translateCreateTable, h, buildIndexQueries_eq_filter_map]
  · intro n
    rw [indexNamesOfDo_emission]
    simp only [List.mem_cons, List.mem_map, List.mem_filter, Prod.exists,
      Bool.and_eq_true, Bool.or_eq_true, bne_iff_ne]
    constructor
    · rintro (rfl | ⟨f, fd, ⟨hmem, hne, hflag⟩, rfl⟩)
      · exact .inl rfl
      · exact .inr ⟨f, fd, hmem, hne, hflag, rfl⟩
    · rintro (rfl | ⟨f, fd, hmem, hne, hflag, rfl⟩)
      · exact .inl rfl
      · exact .inr ⟨f, fd, ⟨hmem, hne, hflag⟩, rfl⟩

/-- Witness for C2 amended: the column tokens of
`(name VARCHAR, email VARCHAR UNIQUE)` parse to metadata marking `email`
unique, and the emitted `do` creates exactly `all_users` and
`users_by_email`. -/
theorem create_table_emission_amended_witness :
    translateCreateTable "users"
        [Tok.atom .Punct "(",
         Tok.atom .Name "name", Tok.atom .Whitespace " ", Tok.atom .Name "VARCHAR",
         Tok.atom .Punct ",",
         Tok.atom .Name "email", Tok.atom .Whitespace " ", Tok.atom .Name "VARCHAR",
         Tok.atom .Whitespace " ", Tok.atom .Keyword "UNIQUE",
         Tok.atom .Punct ")"] =
      .ok [createCollectionQ "users"
             [("name", { unique := false, not_null := false, defaultVal := none,
                         dtype := "String", references := none }),
              ("email", { unique := true, not_null := false, defaultVal := none,
                          dtype := "String", references := none })],
           .fn "do" [allIndexQ "users",
             mkFieldIndexQ "users" "email"
               { unique := true, not_null := false, defaultVal := none,
                 dtype := "String", references := none },
             .fn "collection" [.str "users"]]] := by
  have h := (create_table_emission_amended "users"
    [Tok.atom .Punct "(",
     Tok.atom .Name "name", Tok.atom .Whitespace " ", Tok.atom .Name "VARCHAR",
     Tok.atom .Punct ",",
     Tok.atom .Name "email", Tok.atom .Whitespace " ", Tok.atom .Name "VARCHAR",
     Tok.atom .Whitespace " ", Tok.atom .Keyword "UNIQUE",
     Tok.atom .Punct ")"]
    [("name", { unique := false, not_null := false, defaultVal := none,
                dtype := "String", references := none }),
     ("email", { unique := true, not_null := false, defaultVal := none,
                 dtype := "String", references := none })] rfl).1
  simpa using h

/-- The flattened column tokens of
`(name VARCHAR, FOREIGN KEY (id) REFERENCES teams (id))`. -/
def fkOnIdColumnToks : List Tok :=
  [.atom .Punct "(",
   .atom .Name "name", .atom .Whitespace " ", .atom .Name "VARCHAR",
   .atom .Punct ",",
   .atom .Keyword "FOREIGN", .atom .Whitespace " ", .atom .Name "KEY",
   .atom .Punct "(", .atom .Name "id", .atom .Punct ")",
   .atom .Keyword "REFERENCES", .atom .Whitespace " ", .atom .Name "teams",
   .atom .Punct "(", .atom .Name "id", .atom .Punct ")",
   .atom .Punct ")"]

/-- The metadata parsed from `fkOnIdColumnToks`: the field `id` carries
references. -/
def fkOnIdMeta : Meta :=
  [("name", { unique := false, not_null := false, defaultVal := none,
              dtype := "String", references := none }),
   ("id", { unique := false, not_null := false, defaultVal := none,
            dtype := "", references := some ("teams", "id") })]

/-- C2 counterexample: on
`CREATE TABLE users (name VARCHAR, FOREIGN KEY (id) REFERENCES teams (id))`
the field `id` has references, so the claimed index-name set
`{all_T} ∪ {T_by_f : f unique ∨ f references}` contains `users_by_id`,
but the emission loop never indexes the field named `id`: the emitted
`do` creates only `all_users`. -/
theorem create_table_claimed_index_set_counterexample :
    extractColumnDefinitions fkOnIdColumnToks = .ok fkOnIdMeta
      ∧ translateCreateTable "users" fkOnIdColumnToks =
          .ok [createCollectionQ "users" fkOnIdMeta,
               .fn "do" [allIndexQ "users", .fn "collection" [.str "users"]]]
      ∧ indexNamesOfDo (.fn "do" [allIndexQ "users", .fn "collection" [.str "users"]]) =
          ["all_users"]
      ∧ claimedIndexNames "users" fkOnIdMeta = ["all_users", "users_by_id"]
      ∧ "users_by_id" ∉ (["all_users"] : List String) := by
  refine ⟨rfl, rfl, rfl, rfl, by decide⟩

/-! ## Fauna response values, ref-to-dict shaping (C10) and the driver
dispatch (C1) -/

/-- Scalar payloads of Fauna responses: strings, numbers, booleans, null,
`FaunaTime` values and the python datetimes they convert to. -/
inductive Prim
  | str (s : String)
  | int (n : Int)
  | bool (b : Bool)
  | null
  | time (iso : String)
  | datetime (iso : String)

/-- A Fauna response value: a scalar, or a `Ref` carrying its id and its
value map (whose values may themselves be refs). -/
inductive FVal
  | prim (p : Prim)
  | ref (id : String) (value : List (String × FVal))

/-- Python dict assignment for response dicts (replace in place or append,
like `metaUpsert`). -/
def dictUpsert {α : Type} : List (String × α) → String → α → List (String × α)
  | [], k, v => [(k, v)]
  | (k', v') :: rest, k, v =>
    if k' = k then (k', v) :: rest else (k', v') :: dictUpsert rest k v

/-- The accumulation loop shared verbatim by both `_fauna_reference_to_dict`
implementations: walk the ref's value items; skip the key `metadata`;
store a `Ref` value at key `k` as `k_id` mapped to that ref's id string;
keep every other entry unchanged. -/
def refToDictLoop (acc : List (String × FVal)) : List (String × FVal) → List (String × FVal)
  | [] => acc
  | (k, v) :: rest =>
    if k = "metadata" then refToDictLoop acc rest
    else
      match v with
      | .ref i _ => refToDictLoop (dictUpsert acc (k ++ "_id") (.prim (.str i))) rest
      | .prim p => refToDictLoop (dictUpsert acc k (.prim p)) rest

/-- `FaunadbClient._fauna_reference_to_dict` of the legacy driver
(`sqlalchemy_fauna/faunadb.py`), applied to the ref's value map. -/
def faunaReferenceToDictLegacy (value : List (String × FVal)) : List (String × FVal) :=
  refToDictLoop [] value

/-- `FaunaClient._fauna_reference_to_dict` of the refactored driver
(`sqlalchemy_fauna/fauna/client.py`); its body is token-for-token the same
loop as the legacy one. -/
def faunaReferenceToDictClient (value : List (String × FVal)) : List (String × FVal) :=
  refToDictLoop [] value

/-- The mapping described by the claim, written directly from its words:
every key of the ref's value map except `metadata` is kept with its
value, and a value that is itself a Ref at key `k` is replaced by the
entry `k_id` mapped to that Ref's id string. -/
def refToDictClaim (value : List (String × FVal)) : List (String × FVal) :=
  (value.filter (fun p => p.1 != "metadata")).map
    (fun p =>
      match p.2 with
      | .ref i _ => (p.1 ++ "_id", .prim (.str i))
      | v => (p.1, v))

/-- Output keys of the claimed mapping. -/
def refOutKeys (value : List (String × FVal)) : List String :=
  (refToDictClaim value).map Prod.fst

theorem dictUpsert_eq_append {α : Type} (acc : List (String × α)) (k : String) (v : α)
    (h : k ∉ acc.map Prod.fst) : dictUpsert acc k v = acc ++ [(k, v)] := by
  induction acc with
  | nil => rfl
  | cons p rest ih =>
    obtain ⟨k', v'⟩ := p
    simp only [List.map_cons, List.mem_cons] at h
    push_neg at h
    simp [dictUpsert, Ne.symm h.1, ih h.2]

theorem refToDictLoop_fresh :
    ∀ (value : List (String × FVal)) (acc : List (String × FVal)),
      (∀ k ∈ refOutKeys value, k ∉ acc.map Prod.fst) →
      (refOutKeys value).Nodup →
      refToDictLoop acc value = acc ++ refToDictClaim value := by
  intro value
  induction value with
  | nil => intro acc _ _; simp [refToDictLoop, refToDictClaim]
  | cons p rest ih =>
    intro acc hfresh hnd
    obtain ⟨k, v⟩ := p
    by_cases hmeta : k = "metadata"
    · have hkeys : refOutKeys ((k, v) :: rest) = refOutKeys rest := by
        simp [refOutKeys, refToDictClaim, List.filter_cons, hmeta]
      rw [hkeys] at hfresh hnd
      simpa [refToDictLoop, hmeta, refToDictClaim, List.filter_cons] using ih acc hfresh hnd
    · have hne : (k != "metadata") = true := by simpa using hmeta
      cases v with
      | ref i rv =>
        have hkeys : refOutKeys ((k, .ref i rv) :: rest) = (k ++ "_id") :: refOutKeys rest := by
          simp [refOutKeys, refToDictClaim, List.filter_cons, hne]
        rw [hkeys] at hfresh hnd
        have hknotin : (k ++ "_id") ∉ acc.map Prod.fst :=
          hfresh _ (List.mem_cons_self _ _)
        have hnd' := (List.nodup_cons.mp hnd).2
        have hnotin := (List.nodup_cons.mp hnd).1
        rw [show refToDictLoop acc ((k, FVal.ref i rv) :: rest)
            = refToDictLoop (dictUpsert acc (k ++ "_id") (.prim (.str i))) rest by
          simp [refToDictLoop, hmeta]]
        rw [dictUpsert_eq_append acc _ _ hknotin]
        rw [ih _ ?_ hnd']
        · simp [refToDictClaim, List.filter_cons, hne]
        · intro k' hk'
          simp only [List.map_append, List.mem_append, List.map_cons, List.map_nil,
            List.mem_singleton, List.mem_cons, List.not_mem_nil, or_false]
          push_neg
          exact ⟨fun hh => (hfresh k' (List.mem_cons_of_mem _ hk')) hh,
            fun hh => hnotin (hh ▸ hk')⟩
      | prim pv =>
        have hkeys : refOutKeys ((k, .prim pv) :: rest) = k :: refOutKeys rest := by
          simp [refOutKeys, refToDictClaim, List.filter_cons, hne]
        rw [hkeys] at hfresh hnd
        have hknotin : k ∉ acc.map Prod.fst := hfresh _ (List.mem_cons_self _ _)
        have hnd' := (List.nodup_cons.mp hnd).2
        have hnotin := (List.nodup_cons.mp hnd).1
        rw [show refToDictLoop acc ((k, FVal.prim pv) :: rest)
            = refToDictLoop (dictUpsert acc k (.prim pv)) rest by
          simp [refToDictLoop, hmeta]]
        rw [dictUpsert_eq_append acc _ _ hknotin]
        rw [ih _ ?_ hnd']
        · simp [refToDictClaim, List.filter_cons, hne]
        · intro k' hk'
          simp only [List.map_append, List.mem_append, List.map_cons, List.map_nil,
            List.mem_singleton, List.mem_cons, List.not_mem_nil, or_false]
          push_neg
          exact ⟨fun hh => (hfresh k' (List.mem_cons_of_mem _ hk')) hh,
            fun hh => hnotin (hh ▸ hk')⟩

/-- C10: the legacy driver's and the refactored driver's
`_fauna_reference_to_dict` agree on every Ref (their bodies are
identical), and whenever the produced keys are distinct (which holds in
particular when the value map's own keys are, absent a `k`/`k_id`
collision) the common result is exactly the claimed mapping: the value
map without `metadata`, with each Ref value at key `k` replaced by
`k_id` mapped to its id string. -/
theorem fauna_reference_to_dict_equivalence (value : List (String × FVal)) :
    faunaReferenceToDictLegacy value = faunaReferenceToDictClient value
      ∧ ((refOutKeys value).Nodup →
          faunaReferenceToDictLegacy value = refToDictClaim value) := by
  refine ⟨rfl, fun hnd => ?_⟩
  have := refToDictLoop_fresh value [] (by simp) hnd
  simpa [faunaReferenceToDictLegacy] using this

/-- A sample ref value map with a scalar field, a `metadata` entry and a
nested Ref. -/
def demoRefValue : List (String × FVal) :=
  [("name", .prim (.str "A")),
   ("metadata", .prim .null),
   ("team", .ref "7" [])]

/-- Witness for C10: on `demoRefValue` both implementations produce the
claimed mapping. -/
theorem fauna_reference_to_dict_equivalence_witness :
    faunaReferenceToDictLegacy demoRefValue =
      [("name", FVal.prim (.str "A")), ("team_id", FVal.prim (.str "7"))] :=
  ((fauna_reference_to_dict_equivalence demoRefValue).2 (by decide)).trans rfl

/-! ## The driver dispatch (C1) -/

/-- Result of `translate_sql_to_fql`: a single query expression (the
SELECT shape) or a list of expressions (the CREATE shape). -/
inductive TransRes
  | single (q : Q)
  | many (qs : List Q)

/-- `translate_sql_to_fql`
(`sqlalchemy_fauna/fauna/translation/__init__.py`): dispatch on the first
token of the (re-parsed) statement.  Only `SELECT` and `CREATE` have
branches; every other statement falls through to a bare
`NotSupportedError`.  The SELECT and CREATE translators are passed as
parameters (`select.py` is absent from `src/`; `translate_create` is
embedded separately). -/
def translateSqlToFql (tSel tCre : Tok → Except Exc TransRes) (stmt : Tok) :
    Except Exc TransRes :=
  match tokFirst stmt with
  | none => .error (.pyError "AttributeError")
  | some first =>
    if first.matchTV .DML "SELECT" then tSel stmt
    else if first.matchTV .DDL "CREATE" then tCre stmt
    else .error (.notSupported "")

/-- `FaunaClient._convert_fauna_to_python`: refs become their id strings,
`FaunaTime` values become datetimes, other scalars pass through (lists
and dicts are rejected by an assertion; `FVal` rows carry neither). -/
def convertFaunaToPython : FVal → FVal
  | .ref i _ => .prim (.str i)
  | .prim (.time s) => .prim (.datetime s)
  | .prim p => .prim p

/-- `FaunaClient._fauna_data_to_sqlalchemy_result`: convert every value of
a returned datum. -/
def faunaDataToSqlalchemyResult (data : List (String × FVal)) : List (String × FVal) :=
  data.map (fun p => (p.1, convertFaunaToPython p.2))

/-- The `data` list of a DB response. -/
structure DbResult where
  data : List (List (String × FVal))

/-- `FaunaClient._execute_sql_statement` (`sqlalchemy_fauna/fauna/client.py`):
a statement whose first token is `SELECT`, `INSERT`, `DELETE` or `UPDATE`
is translated once by `translate_sql_to_fql`, executed once against the
DB client (a `BadRequest` mentioning `"document is not unique"` becomes a
`ProgrammingError`), and each returned datum is shaped into a row
mapping; `CREATE` and `DROP` statements go to their own handlers (passed
as parameters here); anything else raises `NotSupported`. -/
def executeSqlStatementClient
    (tSel tCre : Tok → Except Exc TransRes)
    (db : TransRes → Except Exc DbResult)
    (execCreate execDrop : Tok → Except Exc (List (List (String × FVal))))
    (stmt : Tok) : Except Exc (List (List (String × FVal))) :=
  match tokFirst stmt with
  | none => .error (.pyError "AttributeError")
  | some first =>
    if first.matchTV .DML "SELECT" || first.matchTV .DML "INSERT"
        || first.matchTV .DML "DELETE" || first.matchTV .DML "UPDATE" then
      match translateSqlToFql tSel tCre stmt with
      | .error e => .error e
      | .ok fql =>
        match db fql with
        | .error (.dbBadRequest msg) =>
          if strContains "document is not unique" msg then
            .error (.programming
              "Tried to create a document with duplicate value for a unique field.")
          else .error (.dbBadRequest msg)
        | .error e => .error e
        | .ok result => .ok (result.data.map faunaDataToSqlalchemyResult)
    else if first.matchTV .DDL "CREATE" then execCreate stmt
    else if first.matchTV .DDL "DROP" then execDrop stmt
    else .error (.notSupported "")

/-- C1: the claim states that every statement whose first token is
`SELECT`, `INSERT`, `DELETE` or `UPDATE` is translated once, executed
once and shaped into rows, and in particular that translating a
supported `INSERT`, `DELETE` or `UPDATE` does not raise `NotSupported`.
The dispatch of `_execute_sql_statement` does route all four verbs into
that single translate-execute-shape path, but `translate_sql_to_fql`
itself only handles `SELECT` and `CREATE`: for `INSERT`, `DELETE` and
`UPDATE` statements it raises a bare `NotSupported` before anything is
executed, for any SELECT/CREATE translators and any database oracle. -/
theorem dml_dispatch_translation_not_supported_bug
    (tSel tCre : Tok → Except Exc TransRes)
    (db : TransRes → Except Exc DbResult)
    (execCreate execDrop : Tok → Except Exc (List (List (String × FVal))))
    (rest : List Tok) :
    executeSqlStatementClient tSel tCre db execCreate execDrop
        (.group .Statement (.atom .DML "UPDATE" :: rest)) = .error (.notSupported "")
      ∧ executeSqlStatementClient tSel tCre db execCreate execDrop
          (.group .Statement (.atom .DML "INSERT" :: rest)) = .error (.notSupported "")
      ∧ executeSqlStatementClient tSel tCre db execCreate execDrop
          (.group .Statement (.atom .DML "DELETE" :: rest)) = .error (.notSupported "")
      ∧ translateSqlToFql tSel tCre
          (.group .Statement (.atom .DML "UPDATE" :: rest)) = .error (.notSupported "") :=
  ⟨rfl, rfl, rfl, rfl⟩

end Tipresias
